import Mathlib

/-
Verification of the command-pattern invokers in duphan2014/design-patterns.

Two invokers exist in the C sources:

* `src/behavioral/simple_command.c`: a `RemoteControl` holding a fixed array
  `Command* history[MAX_HISTORY]` and an `int history_count`, with operations
  `press_button` (execute a command, then record it if there is room) and
  `press_undo` (undo the most recent recorded command and decrement the count).
  The receiver is a `Light` with `int is_on` and `int brightness`.

* `src/behavioral/simple_strategy.c` (second embedded program, a command
  pattern over a text editor): a `CommandManager` holding
  `Command* command_history[MAX_COMMANDS]`, an `int current_index` cursor
  (-1 when nothing is applied) and an `int history_size`, with operations
  `execute_command` (execute, truncate the redo tail, append),
  `undo_command` (undo the command at the cursor, step the cursor back) and
  `redo_command` (step the cursor forward, re-execute that command).

The embedding is value-based: a C command object is a value that its own
execute may update (a BrightnessCommand saves the prior brightness into its
`old_brightness` field at execute time), so execute has type
`Command → Light → Command × Light` and the history stores the post-execute
value, exactly as the C history stores a pointer to the (mutated) object.
Fixed arrays are modelled by the list of their populated prefix: the list
holds slots `0 .. count-1`; the length-equals-count invariant holds for every
state reachable from the constructor and is proved below.  The `printf` of
"Nothing to undo" / "Nothing to redo" on the boundary branches is modelled by
an explicit result value.
-/

/-- Receiver from simple_command.c: `int is_on; int brightness;`. -/
structure Light where
  is_on : Int
  brightness : Int
deriving DecidableEq

/-- `create_light`: starts off, medium brightness. -/
def create_light : Light := ⟨0, 50⟩

/-- The three concrete commands of simple_command.c.  The `name` strings of
the C structs are print-only and are not modelled.  A brightness command
carries its `new_brightness` and `old_brightness` fields; `old_brightness`
is overwritten by its own execute. -/
inductive Command where
  | turnOn
  | turnOff
  | brightness (new_brightness : Int) (old_brightness : Int)
deriving DecidableEq

/-- `create_brightness_command`: `old_brightness` is initialised to 0. -/
def create_brightness_command (b : Int) : Command := .brightness b 0

/-- Dispatch of the `execute` function pointers: `turn_on_execute`,
`turn_off_execute`, `brightness_execute`.  The result pair is (command object
after the call, light after the call); only `brightness_execute` mutates its
own object (it saves the prior brightness for undo and also turns the light
on). -/
def Command.execute : Command → Light → Command × Light
  | .turnOn, l => (.turnOn, { l with is_on := 1 })
  | .turnOff, l => (.turnOff, { l with is_on := 0 })
  | .brightness nb _, l => (.brightness nb l.brightness, { is_on := 1, brightness := nb })

/-- Dispatch of the `undo` function pointers: `turn_on_undo` (light off),
`turn_off_undo` (light on), `brightness_undo` (restore the saved brightness
only; `is_on` is left as it is).  None of them mutates the command object. -/
def Command.undo : Command → Light → Light
  | .turnOn, l => { l with is_on := 0 }
  | .turnOff, l => { l with is_on := 1 }
  | .brightness _ ob, l => { l with brightness := ob }

/-- `#define MAX_HISTORY 10` in simple_command.c. -/
def MAX_HISTORY : Nat := 10

/-- `RemoteControl`: the list models the populated prefix
`history[0 .. history_count-1]` of the fixed `Command* history[MAX_HISTORY]`
array; slots at and beyond `history_count` are never read by any operation,
so they are not represented. -/
structure RemoteControl where
  history : List Command
  history_count : Nat
deriving DecidableEq

/-- `create_remote`: `history_count = 0`, array uninitialised. -/
def create_remote : RemoteControl := ⟨[], 0⟩

/-- Result reported by `press_undo` (the C function prints "Nothing to undo"
on the empty boundary; spec section 6 names this result `UndoResult`). -/
inductive UndoResult where
  | Applied
  | NothingToUndo
deriving DecidableEq

/-- `press_button`: executes the command first, unconditionally; then, only
if `history_count < MAX_HISTORY`, stores the (possibly self-updated) command
at index `history_count` and increments the count.  At full capacity the
command is executed but not recorded. -/
def press_button (remote : RemoteControl) (light : Light) (command : Command) :
    RemoteControl × Light :=
  let r := command.execute light
  if remote.history_count < MAX_HISTORY then
    (⟨remote.history ++ [r.1], remote.history_count + 1⟩, r.2)
  else
    (remote, r.2)

/-- `press_undo`: if `history_count > 0`, undoes `history[history_count-1]`
and decrements the count (the array slot itself is not cleared in C, but it
is beyond the populated prefix afterwards, so the prefix model drops it);
otherwise prints "Nothing to undo" and changes nothing.  The `none` branch of
the slot lookup is unreachable from `create_remote` (in C it would read an
unwritten slot). -/
def press_undo (remote : RemoteControl) (light : Light) :
    RemoteControl × Light × UndoResult :=
  if remote.history_count > 0 then
    match remote.history.get? (remote.history_count - 1) with
    | some last_command =>
        (⟨remote.history.dropLast, remote.history_count - 1⟩,
          last_command.undo light, .Applied)
    | none =>
        (⟨remote.history.dropLast, remote.history_count - 1⟩, light, .Applied)
  else
    (remote, light, .NothingToUndo)

/-- The operations a client can perform on a `RemoteControl` after
construction (simple_command.c exposes exactly `press_button` and
`press_undo`). -/
inductive RemoteOp where
  | button (c : Command)
  | undo

/-- Run a sequence of remote operations from a given state, threading the
remote and the light. -/
def run_remote : List RemoteOp → RemoteControl → Light → RemoteControl × Light
  | [], r, l => (r, l)
  | .button c :: ops, r, l =>
      let p := press_button r l c
      run_remote ops p.1 p.2
  | .undo :: ops, r, l =>
      let p := press_undo r l
      run_remote ops p.1 p.2.1

/-- Representation invariant of the prefix model: the list is exactly the
populated prefix, and the count never exceeds the array capacity. -/
def remote_inv (r : RemoteControl) : Prop :=
  r.history.length = r.history_count ∧ r.history_count ≤ MAX_HISTORY

/-- `CommandManager` from the command-pattern program embedded in
simple_strategy.c: fixed array `Command* command_history[MAX_COMMANDS]`,
cursor `current_index` (-1 based) and `history_size`, both C ints.  The list
models the populated prefix `command_history[0 .. history_size-1]`.  The
manager is generic over the command type and receiver type, with the
function-pointer dispatch passed explicitly, since the C manager only ever
calls commands through their `execute`/`undo` pointers. -/
structure CommandManager (κ : Type) where
  command_history : List κ
  current_index : Int
  history_size : Int
deriving DecidableEq

/-- `create_command_manager`: `current_index = -1`, `history_size = 0`. -/
def create_command_manager (κ : Type) : CommandManager κ := ⟨[], -1, 0⟩

/-- Result reported by `redo_command` (the C function prints "Nothing to
redo" at the tip; spec section 6 names this result `RedoResult`). -/
inductive RedoResult where
  | Applied
  | NothingToRedo
deriving DecidableEq

/-- `execute_command`: executes the command, destroys the commands at indices
`current_index+1 .. history_size-1` (the redo tail), then stores the command
at `current_index+1` and sets `history_size = current_index + 1` after the
increment.  In the prefix model the truncated-and-appended contents are
`take (current_index+1) ++ [executed command]`. -/
def execute_command {κ σ : Type} (execFn : κ → σ → κ × σ)
    (m : CommandManager κ) (s : σ) (c : κ) : CommandManager κ × σ :=
  let r := execFn c s
  (⟨m.command_history.take (m.current_index + 1).toNat ++ [r.1],
    m.current_index + 1, m.current_index + 2⟩, r.2)

/-- `undo_command`: if `current_index >= 0`, undoes
`command_history[current_index]` and decrements the cursor; the history
contents and `history_size` are untouched (unlike `press_undo`, the entry
stays and remains reachable by redo).  The stored command value is written
back since in C the undo call could mutate the object in place.  The `none`
branch of the slot lookup is unreachable from `create_command_manager`. -/
def undo_command {κ σ : Type} (undoFn : κ → σ → κ × σ)
    (m : CommandManager κ) (s : σ) : CommandManager κ × σ × UndoResult :=
  if 0 ≤ m.current_index then
    match m.command_history.get? m.current_index.toNat with
    | some c =>
        let r := undoFn c s
        (⟨m.command_history.set m.current_index.toNat r.1,
          m.current_index - 1, m.history_size⟩, r.2, .Applied)
    | none =>
        (⟨m.command_history, m.current_index - 1, m.history_size⟩, s, .Applied)
  else
    (m, s, .NothingToUndo)

/-- `redo_command`: if `current_index + 1 < history_size`, increments the
cursor and re-executes the command now at the cursor (writing back its
possibly self-updated value); otherwise prints "Nothing to redo" and changes
nothing.  The `none` branch of the slot lookup is unreachable from
`create_command_manager`. -/
def redo_command {κ σ : Type} (execFn : κ → σ → κ × σ)
    (m : CommandManager κ) (s : σ) : CommandManager κ × σ × RedoResult :=
  if m.current_index + 1 < m.history_size then
    match m.command_history.get? (m.current_index + 1).toNat with
    | some c =>
        let r := execFn c s
        (⟨m.command_history.set (m.current_index + 1).toNat r.1,
          m.current_index + 1, m.history_size⟩, r.2, .Applied)
    | none =>
        (⟨m.command_history, m.current_index + 1, m.history_size⟩, s, .Applied)
  else
    (m, s, .NothingToRedo)

/-- States in which the concrete commands' inverse effects are exact: a
TurnOnCommand undone from a light that was off, a TurnOffCommand undone from
a light that was on, a BrightnessCommand undone from a light that was on
(its execute forces `is_on := 1` and its undo never restores `is_on`). -/
def inverse_exact : Command → Light → Bool
  | .turnOn, l => decide (l.is_on = 0)
  | .turnOff, l => decide (l.is_on = 1)
  | .brightness _ _, l => decide (l.is_on = 1)

/-- A remote whose history is at full capacity (ten distinct entries). -/
def full_remote : RemoteControl :=
  ⟨[.brightness 0 0, .brightness 1 0, .brightness 2 0, .brightness 3 0,
    .brightness 4 0, .brightness 5 0, .brightness 6 0, .brightness 7 0,
    .brightness 8 0, .brightness 9 0], 10⟩

/-- Result of the spec's recommended fallible execute (spec sections 4.1, 6
and 7): the command interface in the C sources returns `void` from its
effects, so success/failure reporting exists only in the spec. -/
inductive ExecResultF where
  | Applied
  | Failed
deriving DecidableEq

/-- Result of the spec's recommended fallible undo. -/
inductive UndoResultF where
  | Applied
  | NothingToUndo
  | Failed
deriving DecidableEq

/-- Result of the spec's recommended fallible redo. -/
inductive RedoResultF where
  | Applied
  | NothingToRedo
  | Failed
deriving DecidableEq

/-- Modelled from the spec: no command effect in the C sources can report
failure (`void (*execute)(Command*)`), so the failure-propagating execute the
spec recommends ("each Command's effect return a success/failure signal",
sections 4.1 and 7) is missing from the code.  This models it over the
cursor-plus-sequence history: run the forward effect; on failure report it
and leave the history, cursor and receiver untouched; on success truncate the
redo tail, append and advance the cursor. -/
def execute_command_f {κ σ : Type} (execFn : κ → σ → Option (κ × σ))
    (m : CommandManager κ) (s : σ) (c : κ) : CommandManager κ × σ × ExecResultF :=
  match execFn c s with
  | some r =>
      (⟨m.command_history.take (m.current_index + 1).toNat ++ [r.1],
        m.current_index + 1, m.current_index + 2⟩, r.2, .Applied)
  | none => (m, s, .Failed)

/-- Modelled from the spec: the fallible undo the spec recommends (sections
4.1 and 7), missing from the code for the same reason.  At the `-1` boundary
it reports nothing-to-undo; if the inverse effect of the command at the
cursor fails, the failure is reported and the cursor is not moved; on success
the cursor steps back.  A missing slot cannot occur while the cursor
invariant holds and is mapped to failure. -/
def undo_command_f {κ σ : Type} (undoFn : κ → σ → Option (κ × σ))
    (m : CommandManager κ) (s : σ) : CommandManager κ × σ × UndoResultF :=
  if 0 ≤ m.current_index then
    match m.command_history.get? m.current_index.toNat with
    | some c =>
        match undoFn c s with
        | some r =>
            (⟨m.command_history.set m.current_index.toNat r.1,
              m.current_index - 1, m.history_size⟩, r.2, .Applied)
        | none => (m, s, .Failed)
    | none => (m, s, .Failed)
  else
    (m, s, .NothingToUndo)

/-- Modelled from the spec: the fallible redo the spec recommends (sections
4.1 and 7), missing from the code for the same reason.  At the tip it reports
nothing-to-redo; if the forward effect of the next command fails, the failure
is reported and the cursor is not moved; on success the cursor advances.  A
missing slot cannot occur while the cursor invariant holds and is mapped to
failure. -/
def redo_command_f {κ σ : Type} (execFn : κ → σ → Option (κ × σ))
    (m : CommandManager κ) (s : σ) : CommandManager κ × σ × RedoResultF :=
  if m.current_index + 1 < m.history_size then
    match m.command_history.get? (m.current_index + 1).toNat with
    | some c =>
        match execFn c s with
        | some r =>
            (⟨m.command_history.set (m.current_index + 1).toNat r.1,
              m.current_index + 1, m.history_size⟩, r.2, .Applied)
        | none => (m, s, .Failed)
    | none => (m, s, .Failed)
  else
    (m, s, .NothingToRedo)

/-- `press_button` keeps the prefix model's representation invariant. -/
theorem press_button_inv (r : RemoteControl) (l : Light) (c : Command)
    (h : remote_inv r) : remote_inv (press_button r l c).1 := by
  obtain ⟨h1, h2⟩ := h
  unfold press_button remote_inv
  by_cases hlt : r.history_count < MAX_HISTORY
  · simp [if_pos hlt, h1]
    omega
  · simp [if_neg hlt, h1, h2]

/-- `press_undo` keeps the prefix model's representation invariant. -/
theorem press_undo_inv (r : RemoteControl) (l : Light)
    (h : remote_inv r) : remote_inv (press_undo r l).1 := by
  obtain ⟨h1, h2⟩ := h
  unfold press_undo remote_inv
  by_cases hpos : r.history_count > 0
  · rw [if_pos hpos]
    cases hg : r.history.get? (r.history_count - 1) <;>
      simp [List.length_dropLast, h1] <;> omega
  · rw [if_neg hpos]
    exact ⟨h1, h2⟩

/-- Any run of remote operations keeps the representation invariant. -/
theorem run_remote_inv (ops : List RemoteOp) (r : RemoteControl) (l : Light)
    (h : remote_inv r) : remote_inv (run_remote ops r l).1 := by
  induction ops generalizing r l with
  | nil => exact h
  | cons op ops ih =>
      cases op with
      | button c => exact ih _ _ (press_button_inv r l c h)
      | undo => exact ih _ _ (press_undo_inv r l h)

/-- C1: Truncation on branch.  From history [c1, c2, c3] with the cursor at
c3 (history_count = 3), two press_undo calls drop history_count from 3 to 1
(undoing c3 then c2 on the light), and press_button on c4 then stores c4 at
index 1 and sets history_count to 2, so the recorded history is exactly
[c1, c4] (c4 as updated by its own execute, which in C is the very same
object that was passed in).  c2 and c3 are gone from the recorded history,
and simple_command.c has no redo operation that could reach them. -/
theorem truncation_on_branch (c1 c2 c3 c4 : Command) (l0 : Light) :
    let s1 := press_undo ⟨[c1, c2, c3], 3⟩ l0
    let s2 := press_undo s1.1 s1.2.1
    let s3 := press_button s2.1 s2.2.1 c4
    s1.1.history_count = 2 ∧ s1.2.1 = c3.undo l0 ∧
    s2.1.history_count = 1 ∧ s2.1.history = [c1] ∧
    s3.1.history = [c1, (c4.execute s2.2.1).1] ∧ s3.1.history_count = 2 :=
  ⟨rfl, rfl, rfl, rfl, rfl, rfl⟩

/-- C10: Brightness side effect and partial inverse.  brightness_execute
saves the prior brightness into old_brightness and sets both brightness and
is_on (forcing the light on); brightness_undo restores only the brightness
field and leaves is_on untouched; hence execute followed by undo always
leaves the light on (is_on = 1) with its original brightness — in
particular a light that was off ends up on. -/
theorem brightness_partial_inverse (l : Light) (nb ob : Int) :
    (Command.brightness nb ob).execute l =
      (Command.brightness nb l.brightness, ⟨1, nb⟩) ∧
    (Command.brightness nb ob).undo l = ⟨l.is_on, ob⟩ ∧
    ((Command.brightness nb ob).execute l).1.undo
        ((Command.brightness nb ob).execute l).2 = ⟨1, l.brightness⟩ :=
  ⟨rfl, rfl, rfl⟩

/-- C9: Silent drop when full.  When history_count = MAX_HISTORY,
press_button still applies the command's execute effect to the light exactly
once, but stores nothing: the remote (contents and count) is returned
unchanged, so nothing is evicted and the action just performed is not
undoable. -/
theorem silent_drop_when_full (r : RemoteControl) (l : Light) (c : Command)
    (hfull : r.history_count = MAX_HISTORY) :
    press_button r l c = (r, (c.execute l).2) := by
  unfold press_button
  rw [if_neg (by omega)]

/-- Witness for silent_drop_when_full at a concrete full remote. -/
theorem silent_drop_when_full_witness :
    press_button full_remote create_light Command.turnOff =
      (full_remote, (Command.turnOff.execute create_light).2) :=
  silent_drop_when_full full_remote create_light Command.turnOff rfl

/-- C2 counterexample: undo does not invert execute for the concrete
commands.  From the initial light (off, brightness 50), pressing a
BrightnessCommand(25) and then undoing it leaves the light ON with
brightness 50 — not the original off state (brightness_execute forces
is_on := 1 and brightness_undo never restores is_on). -/
theorem undo_inverts_counterexample :
    (press_undo (press_button create_remote create_light (Command.brightness 25 0)).1
        (press_button create_remote create_light (Command.brightness 25 0)).2).2.1
      ≠ create_light ∧
    (press_undo (press_button create_remote create_light (Command.brightness 25 0)).1
        (press_button create_remote create_light (Command.brightness 25 0)).2).2.1
      = ⟨1, 50⟩ := by
  constructor <;> decide

/-- C2 (amended): undo inverts execute provided the history has room (so the
command is actually recorded) and the receiver is in a state where the
command's inverse is exact: TurnOnCommand with the light off, TurnOffCommand
with the light on, BrightnessCommand with the light on.  Then press_button
followed by press_undo restores the light exactly (both is_on and
brightness). -/
theorem undo_inverts_execute (r : RemoteControl) (l : Light) (c : Command)
    (hlen : r.history.length = r.history_count)
    (hroom : r.history_count < MAX_HISTORY)
    (hinv : inverse_exact c l = true) :
    (press_undo (press_button r l c).1 (press_button r l c).2).2.1 = l := by
  have hpb : press_button r l c =
      (⟨r.history ++ [(c.execute l).1], r.history_count + 1⟩, (c.execute l).2) := by
    unfold press_button
    rw [if_pos hroom]
  rw [hpb]
  unfold press_undo
  rw [if_pos (Nat.succ_pos _)]
  have hg : (r.history ++ [(c.execute l).1]).get? (r.history_count + 1 - 1) =
      some (c.execute l).1 := by
    rw [Nat.add_sub_cancel, ← hlen, List.get?_eq_getElem?, List.getElem?_concat_length]
  rw [hg]
  obtain ⟨o, b⟩ := l
  cases c with
  | turnOn =>
      simp only [inverse_exact, decide_eq_true_eq] at hinv
      simp [Command.execute, Command.undo, hinv]
  | turnOff =>
      simp only [inverse_exact, decide_eq_true_eq] at hinv
      simp [Command.execute, Command.undo, hinv]
  | brightness nb ob =>
      simp only [inverse_exact, decide_eq_true_eq] at hinv
      simp [Command.execute, Command.undo, hinv]

/-- Witness for undo_inverts_execute: TurnOnCommand from the initial (off)
light on an empty remote. -/
theorem undo_inverts_execute_witness :
    (press_undo (press_button create_remote create_light Command.turnOn).1
        (press_button create_remote create_light Command.turnOn).2).2.1
      = create_light :=
  undo_inverts_execute create_remote create_light Command.turnOn rfl
    (by decide) (by decide)

/-- C3 counterexample: no eviction happens at capacity.  With a full history
of ten distinct commands, pressing a new button leaves the remote completely
unchanged: the oldest entry is still at index 0, nothing shifted, and the
new command is not recorded at the tip (nor anywhere). -/
theorem eviction_counterexample :
    (press_button full_remote create_light Command.turnOff).1 = full_remote ∧
    (press_button full_remote create_light Command.turnOff).1.history.head? =
      some (Command.brightness 0 0) ∧
    (press_button full_remote create_light Command.turnOff).1.history.getLast? ≠
      some Command.turnOff := by
  refine ⟨?_, ?_, ?_⟩ <;> decide

/-- C3 (amended): the history never exceeds MAX_HISTORY = 10 (press_button
preserves the bound), and when press_button is called while the history is
full, the command is executed but not recorded: the remote — contents and
count — is returned unchanged, so no entry is evicted and nothing shifts. -/
theorem capacity_bound_and_silent_drop (r : RemoteControl) (l : Light)
    (c : Command) (hb : r.history_count ≤ MAX_HISTORY) :
    (press_button r l c).1.history_count ≤ MAX_HISTORY ∧
    (r.history_count = MAX_HISTORY → (press_button r l c).1 = r) := by
  unfold press_button
  by_cases hlt : r.history_count < MAX_HISTORY
  · rw [if_pos hlt]
    refine ⟨?_, fun h => absurd h (Nat.ne_of_lt hlt)⟩
    show r.history_count + 1 ≤ MAX_HISTORY
    omega
  · rw [if_neg hlt]
    exact ⟨hb, fun _ => rfl⟩

/-- Witness for capacity_bound_and_silent_drop at a concrete full remote. -/
theorem capacity_bound_and_silent_drop_witness :
    (press_button full_remote create_light Command.turnOn).1.history_count ≤
      MAX_HISTORY ∧
    (press_button full_remote create_light Command.turnOn).1 = full_remote :=
  ⟨(capacity_bound_and_silent_drop full_remote create_light Command.turnOn
      (by decide)).1,
   (capacity_bound_and_silent_drop full_remote create_light Command.turnOn
      (by decide)).2 rfl⟩

/-- C4 counterexample: at full capacity the executed command is not the new
tip of history.  With a full history whose tip is BrightnessCommand(9),
pressing TurnOnCommand leaves the tip unchanged and TurnOnCommand appears
nowhere in the history, although its effect did run. -/
theorem execute_tip_counterexample :
    (press_button full_remote create_light Command.turnOn).1.history.getLast? =
      some (Command.brightness 9 0) ∧
    Command.turnOn ∉ (press_button full_remote create_light Command.turnOn).1.history ∧
    (press_button full_remote create_light Command.turnOn).2.is_on = 1 := by
  refine ⟨?_, ?_, ?_⟩ <;> decide

/-- C4 (amended): press_button always applies the command's forward effect
immediately and synchronously — the returned light is exactly the light
produced by the command's execute — and, whenever history_count <
MAX_HISTORY, the executed command is additionally recorded as the new tip of
history (appended last, count incremented); at full capacity the effect
still applies but the command is not recorded. -/
theorem execute_guarantee (r : RemoteControl) (l : Light) (c : Command) :
    (press_button r l c).2 = (c.execute l).2 ∧
    (r.history_count < MAX_HISTORY →
      (press_button r l c).1.history = r.history ++ [(c.execute l).1] ∧
      (press_button r l c).1.history_count = r.history_count + 1 ∧
      (press_button r l c).1.history.getLast? = some (c.execute l).1) := by
  unfold press_button
  by_cases hlt : r.history_count < MAX_HISTORY
  · rw [if_pos hlt]
    exact ⟨rfl, fun _ => ⟨rfl, rfl, List.getLast?_concat _⟩⟩
  · rw [if_neg hlt]
    exact ⟨rfl, fun h => absurd h hlt⟩

/-- Witness for execute_guarantee on an empty remote. -/
theorem execute_guarantee_witness :
    (press_button create_remote create_light Command.turnOn).2 =
      (Command.turnOn.execute create_light).2 ∧
    (press_button create_remote create_light Command.turnOn).1.history =
      create_remote.history ++ [(Command.turnOn.execute create_light).1] ∧
    (press_button create_remote create_light Command.turnOn).1.history_count =
      create_remote.history_count + 1 ∧
    (press_button create_remote create_light Command.turnOn).1.history.getLast? =
      some (Command.turnOn.execute create_light).1 :=
  ⟨(execute_guarantee create_remote create_light Command.turnOn).1,
   (execute_guarantee create_remote create_light Command.turnOn).2 (by decide)⟩

/-- C5: Boundary no-ops.  press_undo on an empty history (history_count = 0,
cursor -1) reports "Nothing to undo", invokes no command effect, and leaves
the remote (contents and count) and the light unchanged; and redo_command at
the tip of history (current_index = history_size - 1) reports "Nothing to
redo" and leaves the manager and the receiver unchanged. -/
theorem boundary_noops :
    (∀ (r : RemoteControl) (l : Light), r.history_count = 0 →
        press_undo r l = (r, l, UndoResult.NothingToUndo)) ∧
    (∀ (κ σ : Type) (execFn : κ → σ → κ × σ) (m : CommandManager κ) (s : σ),
        m.current_index = m.history_size - 1 →
        redo_command execFn m s = (m, s, RedoResult.NothingToRedo)) := by
  constructor
  · intro r l h
    unfold press_undo
    rw [if_neg (by omega)]
  · intro κ σ execFn m s h
    unfold redo_command
    rw [if_neg (by omega)]

/-- Witness for boundary_noops: the empty remote, and a one-entry manager
whose cursor is at the tip. -/
theorem boundary_noops_witness :
    press_undo create_remote create_light =
      (create_remote, create_light, UndoResult.NothingToUndo) ∧
    redo_command Command.execute ⟨[Command.turnOn], 0, 1⟩ create_light =
      (⟨[Command.turnOn], 0, 1⟩, create_light, RedoResult.NothingToRedo) :=
  ⟨boundary_noops.1 create_remote create_light rfl,
   boundary_noops.2 Command Light Command.execute ⟨[Command.turnOn], 0, 1⟩
     create_light (by decide)⟩

/-- C6: Cursor bounds invariant.  For every sequence of press_button and
press_undo operations from create_remote, history_count stays at most
MAX_HISTORY (it is a Nat, so at least 0, i.e. the cursor history_count - 1
stays in [-1, MAX_HISTORY - 1]), and it always equals the number of recorded
entries (the cursor never points past the populated history). -/
theorem cursor_bounds (ops : List RemoteOp) (l : Light) :
    (run_remote ops create_remote l).1.history_count ≤ MAX_HISTORY ∧
    (run_remote ops create_remote l).1.history.length =
      (run_remote ops create_remote l).1.history_count := by
  have h := run_remote_inv ops create_remote l ⟨rfl, by decide⟩
  exact ⟨h.2, h.1⟩

/-- C7: Redo behavior.  When the cursor is not at the tip
(current_index + 1 < history_size) and the command at the next slot is c,
redo_command increments the cursor and invokes c's forward effect — the
resulting receiver is exactly the one produced by c's execute — re-appending
nothing and truncating nothing: history_size is unchanged and the history
contents are unchanged except that slot's own write-back of the re-executed
command (in C the same object mutated in place, so the array words are
untouched for a non-self-mutating command). -/
theorem redo_reexecutes (κ σ : Type) (execFn : κ → σ → κ × σ)
    (m : CommandManager κ) (s : σ) (c : κ)
    (hc : m.command_history.get? (m.current_index + 1).toNat = some c)
    (hlt : m.current_index + 1 < m.history_size) :
    redo_command execFn m s =
      (⟨m.command_history.set (m.current_index + 1).toNat (execFn c s).1,
        m.current_index + 1, m.history_size⟩, (execFn c s).2,
        RedoResult.Applied) ∧
    (redo_command execFn m s).1.command_history.length =
      m.command_history.length := by
  have hmain : redo_command execFn m s =
      (⟨m.command_history.set (m.current_index + 1).toNat (execFn c s).1,
        m.current_index + 1, m.history_size⟩, (execFn c s).2,
        RedoResult.Applied) := by
    unfold redo_command
    rw [if_pos hlt, hc]
  refine ⟨hmain, ?_⟩
  rw [hmain]
  exact List.length_set m.command_history _ _

/-- Witness for redo_reexecutes: a one-entry manager with the cursor at -1;
redo re-executes TurnOnCommand, turning the light on and moving the cursor
to 0 without touching the history. -/
theorem redo_reexecutes_witness :
    redo_command Command.execute ⟨[Command.turnOn], -1, 1⟩ create_light =
      (⟨[Command.turnOn], 0, 1⟩, ⟨1, 50⟩, RedoResult.Applied) :=
  ((redo_reexecutes Command Light Command.execute ⟨[Command.turnOn], -1, 1⟩
      create_light Command.turnOn (by decide) (by decide)).1).trans (by decide)

/-- C8: Atomicity on effect failure, for the spec's recommended fallible
operations (the C command interface returns void, so effect failure exists
only in the spec; the operations are modelled from it above).  Whenever a
forward or inverse effect reports failure, the corresponding operation
returns the Failed result and leaves everything untouched: the attempted
command is not appended on a failed execute, and the cursor (and the whole
history and receiver) is not moved on a failed undo or redo. -/
theorem effect_failure_atomic :
    (∀ (κ σ : Type) (execFn : κ → σ → Option (κ × σ))
        (m : CommandManager κ) (s : σ) (c : κ), execFn c s = none →
        execute_command_f execFn m s c = (m, s, ExecResultF.Failed)) ∧
    (∀ (κ σ : Type) (undoFn : κ → σ → Option (κ × σ))
        (m : CommandManager κ) (s : σ) (c : κ), 0 ≤ m.current_index →
        m.command_history.get? m.current_index.toNat = some c →
        undoFn c s = none →
        undo_command_f undoFn m s = (m, s, UndoResultF.Failed)) ∧
    (∀ (κ σ : Type) (execFn : κ → σ → Option (κ × σ))
        (m : CommandManager κ) (s : σ) (c : κ),
        m.current_index + 1 < m.history_size →
        m.command_history.get? (m.current_index + 1).toNat = some c →
        execFn c s = none →
        redo_command_f execFn m s = (m, s, RedoResultF.Failed)) := by
  refine ⟨?_, ?_, ?_⟩
  · intro κ σ execFn m s c hfail
    unfold execute_command_f
    rw [hfail]
  · intro κ σ undoFn m s c hcur hc hfail
    unfold undo_command_f
    rw [if_pos hcur, hc]
    simp only [hfail]
  · intro κ σ execFn m s c hlt hc hfail
    unfold redo_command_f
    rw [if_pos hlt, hc]
    simp only [hfail]

/-- Witness for effect_failure_atomic: an always-failing effect on a
one-entry manager; execute, undo (cursor at 0) and redo (cursor at -1) all
fail and leave the manager and receiver untouched. -/
theorem effect_failure_atomic_witness :
    execute_command_f (fun (_ : Command) (_ : Light) => none)
        ⟨[Command.turnOn], 0, 1⟩ create_light Command.turnOff =
      (⟨[Command.turnOn], 0, 1⟩, create_light, ExecResultF.Failed) ∧
    undo_command_f (fun (_ : Command) (_ : Light) => none)
        ⟨[Command.turnOn], 0, 1⟩ create_light =
      (⟨[Command.turnOn], 0, 1⟩, create_light, UndoResultF.Failed) ∧
    redo_command_f (fun (_ : Command) (_ : Light) => none)
        ⟨[Command.turnOn], -1, 1⟩ create_light =
      (⟨[Command.turnOn], -1, 1⟩, create_light, RedoResultF.Failed) :=
  ⟨effect_failure_atomic.1 Command Light _ ⟨[Command.turnOn], 0, 1⟩
      create_light Command.turnOff rfl,
   effect_failure_atomic.2.1 Command Light _ ⟨[Command.turnOn], 0, 1⟩
      create_light Command.turnOn (by decide) (by decide) rfl,
   effect_failure_atomic.2.2 Command Light _ ⟨[Command.turnOn], -1, 1⟩
      create_light Command.turnOn (by decide) (by decide) rfl⟩
